import Mathlib

/-!
Shallow embedding of the `venues` authentication core:
`src/services/auth.service.ts` (the identity service), the user and
verification-token repositories, the token helpers in `src/lib/tokens.ts`,
the error taxonomy in `src/lib/errors.ts`, and the zod email normalization
in `src/lib/validations/auth.ts`.

Modelling conventions:
* timestamps are naturals counting milliseconds (JS `Date.now()`);
* the Prisma-backed stores are lists of records inside a `DB` structure;
* each service operation is a function `DB → args → DB × Except AppError α`
  so that mutations performed before a throw stay visible (TS exceptions
  do not roll back prior awaited store writes);
* the random sources (token generator, bcrypt salt, cuid) are oracle
  parameters passed explicitly to each operation.
-/

namespace Venues

/-! ### JS string primitives used by the code -/

/-- JS `String.prototype.toLowerCase` on one character, ASCII range
(the range exercised by email normalization). -/
def lowerChar (c : Char) : Char :=
  if 65 ≤ c.toNat ∧ c.toNat ≤ 90 then Char.ofNat (c.toNat + 32) else c

/-- JS `String.prototype.toLowerCase`. -/
def lowerStr (s : String) : String :=
  ⟨s.data.map lowerChar⟩

/-- JS whitespace test used by `String.prototype.trim`. -/
def isJsSpace (c : Char) : Bool :=
  c == ' ' || c == '\t' || c == '\n' || c == '\r' || c == '\x0b' || c == '\x0c'

/-- JS `String.prototype.trim`: drop leading and trailing whitespace. -/
def trimStr (s : String) : String :=
  ⟨(((s.data.dropWhile isJsSpace).reverse).dropWhile isJsSpace).reverse⟩

/-- The zod `emailSchema` from `src/lib/validations/auth.ts`:
`z.string().email().toLowerCase().trim()` — the transform chain lowercases
then trims. -/
def emailNorm (e : String) : String :=
  trimStr (lowerStr e)

/-! ### Token helpers (`src/lib/tokens.ts`) -/

/-- Source `generateTokenExpiry(hours)` = `new Date(Date.now() + hours * 60 * 60 * 1000)`,
with the current clock passed explicitly. -/
def generateTokenExpiry (hours : Nat) (now : Nat) : Nat :=
  now + hours * 60 * 60 * 1000

/-- Source `isTokenExpired(expiryDate)` = `new Date() > expiryDate`,
with the current clock passed explicitly. -/
def isTokenExpired (expiryDate : Nat) (now : Nat) : Bool :=
  now > expiryDate

/-! ### Credential hasher -/

/-- Abstract bcrypt output: a salt together with the secret it certifies.
`src/lib/password` is not under the sources; this models its §4.1 contract. -/
structure HashVal where
  salt : Nat
  secret : String
deriving DecidableEq, Repr

/-- Modelled from the spec: the `hashPassword` of `src/lib/password` is absent from
the sources; per §4.1 it is a one-way transform with a per-call random salt
embedded in the output. The salt is an oracle parameter. -/
def hashPassword (secret : String) (salt : Nat) : HashVal :=
  ⟨salt, secret⟩

/-- Modelled from the spec: the `verifyPassword` of `src/lib/password` is absent from
the sources; per §4.1 it returns whether `secret` would have produced the
stored hash. -/
def verifyPassword (secret : String) (h : HashVal) : Bool :=
  h.secret == secret

/-! ### Data model -/

/-- Prisma `UserRole` enum; the repository defaults to `USER`. -/
inductive UserRole where
  | USER
  | ADMIN
deriving DecidableEq, Repr

/-- Prisma `User` record. `password` holds the bcrypt hash (nullable),
`emailVerified` is the nullable verification timestamp. -/
structure User where
  id : String
  name : Option String
  email : String
  password : Option HashVal
  emailVerified : Option Nat
  image : Option String
  role : UserRole
  createdAt : Nat
  updatedAt : Nat
deriving DecidableEq, Repr

/-- Prisma `VerificationToken` record. -/
structure VToken where
  identifier : String
  token : String
  expires : Nat
deriving DecidableEq, Repr

/-- The two Prisma-backed stores. -/
structure DB where
  users : List User
  tokens : List VToken
deriving DecidableEq, Repr

/-- The `UserDTO` from `src/types/auth.ts`: the sanitized view, with no
`password`/credential-hash field in the type at all. -/
structure UserDTO where
  id : String
  name : Option String
  email : String
  emailVerified : Option Nat
  image : Option String
  role : UserRole
  createdAt : Nat
  updatedAt : Nat
deriving DecidableEq, Repr

/-! ### Errors (`src/lib/errors.ts`) -/

inductive ErrorCode where
  | VALIDATION_ERROR
  | AUTHENTICATION_ERROR
  | AUTHORIZATION_ERROR
  | NOT_FOUND
  | CONFLICT
  | INTERNAL_ERROR
deriving DecidableEq, Repr

structure AppError where
  code : ErrorCode
  message : String
deriving DecidableEq, Repr

namespace ErrorMessages

def INVALID_CREDENTIALS : String := "auth.messages.invalidCredentials"
def EMAIL_ALREADY_EXISTS : String := "auth.messages.emailAlreadyExists"
def EMAIL_ALREADY_VERIFIED : String := "auth.messages.emailAlreadyVerified"
def USER_NOT_FOUND : String := "auth.messages.userNotFound"
def EMAIL_NOT_VERIFIED : String := "auth.messages.emailNotVerified"
def INVALID_TOKEN : String := "auth.messages.invalidToken"

end ErrorMessages

/-! ### User repository (`src/repositories/user.repository.ts`) -/

namespace userRepository

/-- Repository `create`: inserts a user; `role` defaults to `USER`, `emailVerified`
starts null.  The cuid and clock are oracle parameters. -/
def create (db : DB) (email name : String) (password : HashVal)
    (role? : Option UserRole) (freshId : String) (now : Nat) : DB × User :=
  let u : User :=
    { id := freshId, name := some name, email := email,
      password := some password, emailVerified := none, image := none,
      role := role?.getD .USER, createdAt := now, updatedAt := now }
  ({ db with users := db.users ++ [u] }, u)

/-- Repository `findById`: `findUnique({ where: { id } })`. -/
def findById (db : DB) (id : String) : Option User :=
  db.users.find? (fun u => u.id == id)

/-- Repository `findByEmail`: `findUnique({ where: { email: email.toLowerCase() } })`. -/
def findByEmail (db : DB) (email : String) : Option User :=
  db.users.find? (fun u => u.email == lowerStr email)

/-- Repository `emailExists`: lookup with `email.toLowerCase()`, null test. -/
def emailExists (db : DB) (email : String) : Bool :=
  (db.users.find? (fun u => u.email == lowerStr email)).isSome

/-- Repository `verifyEmail`: `update({ where: { id }, data: { emailVerified: new Date() } })`;
returns the updated record, or `none` where Prisma would throw (no such id). -/
def verifyEmail (db : DB) (id : String) (now : Nat) : DB × Option User :=
  let users := db.users.map fun u =>
    if u.id == id then { u with emailVerified := some now, updatedAt := now } else u
  ({ db with users := users }, users.find? (fun u => u.id == id))

end userRepository

/-! ### Verification-token repository (`src/repositories/verification-token.repository.ts`) -/

namespace verificationTokenRepository

/-- Repository `create({ identifier, token, expires })`. -/
def create (db : DB) (identifier token : String) (expires : Nat) : DB :=
  { db with tokens := db.tokens ++ [⟨identifier, token, expires⟩] }

/-- Repository `findByTokenValue`: `findUnique({ where: { token } })`. -/
def findByTokenValue (db : DB) (token : String) : Option VToken :=
  db.tokens.find? (fun t => t.token == token)

/-- Repository `delete`: `delete({ where: { identifier_token: { identifier, token } } })`. -/
def delete (db : DB) (identifier token : String) : DB :=
  { db with tokens :=
      db.tokens.filter fun t => !(t.identifier == identifier && t.token == token) }

/-- Repository `deleteByIdentifier`: `deleteMany({ where: { identifier } })`. -/
def deleteByIdentifier (db : DB) (identifier : String) : DB :=
  { db with tokens := db.tokens.filter fun t => t.identifier != identifier }

/-- Repository `deleteExpired`: `deleteMany({ where: { expires: { lt: new Date() } } })`. -/
def deleteExpired (db : DB) (now : Nat) : DB :=
  { db with tokens := db.tokens.filter fun t => !(t.expires < now) }

end verificationTokenRepository

/-! ### Identity service (`src/services/auth.service.ts`) -/

namespace authService

open userRepository verificationTokenRepository

/-- Service `toUserDTO`: strip sensitive fields. -/
def toUserDTO (u : User) : UserDTO :=
  { id := u.id, name := u.name, email := u.email,
    emailVerified := u.emailVerified, image := u.image, role := u.role,
    createdAt := u.createdAt, updatedAt := u.updatedAt }

/-- Input already validated by `registerSchema` (email normalized). -/
structure RegisterInput where
  name : String
  email : String
  password : String

/-- Service `authService.register`. -/
def register (db : DB) (data : RegisterInput)
    (freshId : String) (salt : Nat) (freshToken : String) (now : Nat) :
    DB × Except AppError (UserDTO × String) :=
  if emailExists db data.email then
    (db, .error ⟨.CONFLICT, ErrorMessages.EMAIL_ALREADY_EXISTS⟩)
  else
    let hashedPassword := hashPassword data.password salt
    let (db1, user) := create db data.email data.name hashedPassword none freshId now
    let token := freshToken
    let expires := generateTokenExpiry 24 now
    let db2 := verificationTokenRepository.create db1 user.email token expires
    (db2, .ok (toUserDTO user, token))

/-- The path `registerAction` takes through `registerSchema.parse`:
email lowercased+trimmed, name trimmed, then `authService.register`. -/
def registerFlow (db : DB) (email name password : String)
    (freshId : String) (salt : Nat) (freshToken : String) (now : Nat) :
    DB × Except AppError (UserDTO × String) :=
  register db ⟨trimStr name, emailNorm email, password⟩ freshId salt freshToken now

/-- Service `authService.login`. -/
def login (db : DB) (email password : String) : DB × Except AppError UserDTO :=
  match findByEmail db email with
  | none => (db, .error ⟨.AUTHENTICATION_ERROR, ErrorMessages.INVALID_CREDENTIALS⟩)
  | some user =>
    match user.password with
    | none => (db, .error ⟨.AUTHENTICATION_ERROR, ErrorMessages.INVALID_CREDENTIALS⟩)
    | some stored =>
      if verifyPassword password stored then
        if user.emailVerified.isSome then
          (db, .ok (toUserDTO user))
        else
          (db, .error ⟨.AUTHENTICATION_ERROR, ErrorMessages.EMAIL_NOT_VERIFIED⟩)
      else
        (db, .error ⟨.AUTHENTICATION_ERROR, ErrorMessages.INVALID_CREDENTIALS⟩)

/-- Service `authService.verifyEmail`. -/
def verifyEmail (db : DB) (token : String) (now : Nat) :
    DB × Except AppError UserDTO :=
  match findByTokenValue db token with
  | none => (db, .error ⟨.AUTHENTICATION_ERROR, ErrorMessages.INVALID_TOKEN⟩)
  | some verificationToken =>
    if isTokenExpired verificationToken.expires now then
      (deleteByIdentifier db verificationToken.identifier,
       .error ⟨.AUTHENTICATION_ERROR, ErrorMessages.INVALID_TOKEN⟩)
    else
      match findByEmail db verificationToken.identifier with
      | none => (db, .error ⟨.NOT_FOUND, ErrorMessages.USER_NOT_FOUND⟩)
      | some user =>
        let (db1, verified?) := userRepository.verifyEmail db user.id now
        match verified? with
        | none => (db1, .error ⟨.INTERNAL_ERROR, "record not found"⟩)
        | some verifiedUser =>
          let db2 := delete db1 verificationToken.identifier verificationToken.token
          (db2, .ok (toUserDTO verifiedUser))

/-- Service `authService.resendVerification`.  Note: the account lookup lowercases
the email but the token delete/create below use the email exactly as given,
mirroring the source. -/
def resendVerification (db : DB) (email : String)
    (freshToken : String) (now : Nat) : DB × Except AppError String :=
  match findByEmail db email with
  | none => (db, .error ⟨.NOT_FOUND, ErrorMessages.USER_NOT_FOUND⟩)
  | some user =>
    if user.emailVerified.isSome then
      (db, .error ⟨.VALIDATION_ERROR, ErrorMessages.EMAIL_ALREADY_VERIFIED⟩)
    else
      let db1 := deleteByIdentifier db email
      let token := freshToken
      let expires := generateTokenExpiry 24 now
      let db2 := verificationTokenRepository.create db1 email token expires
      (db2, .ok token)

/-- Service `authService.getUserById`. -/
def getUserById (db : DB) (id : String) : Option UserDTO :=
  (findById db id).map toUserDTO

/-- Service `authService.getUserByEmail`. -/
def getUserByEmail (db : DB) (email : String) : Option UserDTO :=
  (findByEmail db email).map toUserDTO

end authService

/-! ### Derived notions used by the verification -/

/-- The per-record update performed by `userRepository.verifyEmail`. -/
def markVerified (id : String) (now : Nat) (x : User) : User :=
  if x.id == id then { x with emailVerified := some now, updatedAt := now } else x

/-- Every stored token identifier resolves (after the lowercasing done by
the account lookup) to a stored account. -/
def TokensHaveAccounts (db : DB) : Prop :=
  ∀ vt ∈ db.tokens, ∃ u ∈ db.users, u.email = lowerStr vt.identifier

/-- States reachable from empty stores through the public service
operations (with arbitrary oracle values for ids, salts, tokens and
clocks). -/
inductive Reachable : DB → Prop where
  | empty : Reachable ⟨[], []⟩
  | register (db : DB) (email name password freshId : String) (salt : Nat)
      (freshToken : String) (now : Nat) : Reachable db →
      Reachable (authService.registerFlow db email name password
        freshId salt freshToken now).1
  | login (db : DB) (email password : String) : Reachable db →
      Reachable (authService.login db email password).1
  | verifyEmailStep (db : DB) (tok : String) (now : Nat) : Reachable db →
      Reachable (authService.verifyEmail db tok now).1
  | resend (db : DB) (email freshToken : String) (now : Nat) : Reachable db →
      Reachable (authService.resendVerification db email freshToken now).1

/-- An unverified account for `a@x.com` holding one outstanding token,
exactly as produced by a registration. -/
def dbAliceUnverified : DB :=
  ⟨[⟨"u1", some "Alice", "a@x.com", some ⟨7, "Sup3r$ec1"⟩, none, none, .USER, 0, 0⟩],
   [⟨"a@x.com", "T1", 86400000⟩]⟩

/-- The state after `resendVerification` is called on `dbAliceUnverified`
with the same email in mixed case. -/
def dbAfterMixedCaseResend : DB :=
  (authService.resendVerification dbAliceUnverified "A@x.com" "T2" 5).1

/-- The state after the original token `T1` is then consumed. -/
def dbAfterFirstVerify : DB :=
  (authService.verifyEmail dbAfterMixedCaseResend "T1" 1000).1

/-! ### Lemmas about the string primitives -/

theorem toNat_ofNat_lt (n : Nat) (h : n < 55296) : (Char.ofNat n).toNat = n := by
  have hv : n.isValidChar := Or.inl h
  simp [Char.ofNat, hv, Char.ofNatAux, Char.toNat, UInt32.toNat, BitVec.toNat_ofNatLt]

theorem lowerChar_toNat_of_upper (c : Char) (h : 65 ≤ c.toNat ∧ c.toNat ≤ 90) :
    (lowerChar c).toNat = c.toNat + 32 := by
  unfold lowerChar
  rw [if_pos h]
  exact toNat_ofNat_lt _ (by omega)

theorem lowerChar_eq_of_not_upper (c : Char) (h : ¬(65 ≤ c.toNat ∧ c.toNat ≤ 90)) :
    lowerChar c = c := by
  unfold lowerChar
  rw [if_neg h]

theorem lowerChar_idem (c : Char) : lowerChar (lowerChar c) = lowerChar c := by
  by_cases h : 65 ≤ c.toNat ∧ c.toNat ≤ 90
  · have h1 := lowerChar_toNat_of_upper c h
    exact lowerChar_eq_of_not_upper _ (by omega)
  · rw [lowerChar_eq_of_not_upper c h]
    exact lowerChar_eq_of_not_upper c h

theorem lowerStr_eq_self_of_fixed (s : String)
    (h : ∀ c ∈ s.data, lowerChar c = c) : lowerStr s = s := by
  cases s with
  | mk data =>
    unfold lowerStr
    congr 1
    calc data.map lowerChar = data.map id := List.map_congr_left h
    _ = data := List.map_id data

theorem mem_data_trimStr (s : String) (c : Char) (h : c ∈ (trimStr s).data) :
    c ∈ s.data := by
  unfold trimStr at h
  simp only [List.mem_reverse] at h
  have h1 := (List.dropWhile_sublist isJsSpace).mem h
  rw [List.mem_reverse] at h1
  exact (List.dropWhile_sublist isJsSpace).mem h1

theorem mem_data_lowerStr_fixed (s : String) (c : Char) (h : c ∈ (lowerStr s).data) :
    lowerChar c = c := by
  unfold lowerStr at h
  obtain ⟨a, _, rfl⟩ := List.mem_map.mp h
  exact lowerChar_idem a

/-- A zod-normalized email is a fixed point of JS `toLowerCase`. -/
theorem lowerStr_emailNorm (e : String) : lowerStr (emailNorm e) = emailNorm e := by
  apply lowerStr_eq_self_of_fixed
  intro c hc
  exact mem_data_lowerStr_fixed e c (mem_data_trimStr (lowerStr e) c hc)

/-! ### Store-level helper lemmas -/

open authService userRepository verificationTokenRepository

theorem verifyEmail_users_eq_map (db : DB) (id : String) (now : Nat) :
    (userRepository.verifyEmail db id now).1.users =
      db.users.map (markVerified id now) := rfl

theorem find?_map_markVerified (l : List User) (id : String) (now : Nat) (u : User)
    (hu : u ∈ l) (hid : u.id = id) (huniq : ∀ x ∈ l, x.id = id → x = u) :
    (l.map (markVerified id now)).find? (fun x => x.id == id) =
      some { u with emailVerified := some now, updatedAt := now } := by
  induction l with
  | nil => cases hu
  | cons a t ih =>
    by_cases ha : a.id = id
    · have hau : a = u := huniq a (List.mem_cons_self a t) ha
      subst hau
      simp [markVerified, List.find?, ha]
    · have hu' : u ∈ t := by
        cases hu with
        | head => exact absurd hid ha
        | tail _ h => exact h
      have step : (markVerified id now a).id = a.id := by
        simp [markVerified, ha]
      simp only [List.map_cons, List.find?]
      rw [show ((markVerified id now a).id == id) = false by
        simp [step, ha]]
      exact ih hu' (fun x hx hxe => huniq x (List.mem_cons_of_mem a hx) hxe)

theorem userVerifyEmail_snd (db : DB) (id : String) (now : Nat) (u : User)
    (hu : u ∈ db.users) (hid : u.id = id)
    (huniq : ∀ x ∈ db.users, x.id = id → x = u) :
    (userRepository.verifyEmail db id now).2 =
      some { u with emailVerified := some now, updatedAt := now } := by
  unfold userRepository.verifyEmail
  exact find?_map_markVerified db.users id now u hu hid huniq

/-! ### Claim theorems -/

/-- C10: `isTokenExpired` is true exactly when the clock is strictly past the
expiry; `generateTokenExpiry 24` is not yet expired at issuance time, and is
expired when evaluated 24 hours plus one second later. -/
theorem isTokenExpired_round_trip (now e : Nat) :
    isTokenExpired e now = decide (e < now)
    ∧ isTokenExpired (generateTokenExpiry 24 now) now = false
    ∧ isTokenExpired (generateTokenExpiry 24 now)
        (now + 24 * 60 * 60 * 1000 + 1000) = true := by
  refine ⟨rfl, ?_, ?_⟩ <;> simp [isTokenExpired, generateTokenExpiry]

/-- C4: all three `login` failure causes — unknown email, account with no
stored credential hash, and wrong secret — raise the identical error kind
(`AUTHENTICATION_ERROR` with the invalid-credentials message). -/
theorem login_failure_kinds_merged (db : DB) (email password : String) :
    (userRepository.findByEmail db email = none →
      authService.login db email password =
        (db, .error ⟨.AUTHENTICATION_ERROR, ErrorMessages.INVALID_CREDENTIALS⟩))
    ∧ (∀ u, userRepository.findByEmail db email = some u → u.password = none →
      authService.login db email password =
        (db, .error ⟨.AUTHENTICATION_ERROR, ErrorMessages.INVALID_CREDENTIALS⟩))
    ∧ (∀ u hv, userRepository.findByEmail db email = some u → u.password = some hv →
      verifyPassword password hv = false →
      authService.login db email password =
        (db, .error ⟨.AUTHENTICATION_ERROR, ErrorMessages.INVALID_CREDENTIALS⟩)) := by
  refine ⟨?_, ?_, ?_⟩
  · intro h
    simp [authService.login, h]
  · intro u h hp
    simp [authService.login, h, hp]
  · intro u hv h hp hverify
    simp [authService.login, h, hp, hverify]

/-- C4 witness: the three failure causes at concrete inputs. -/
theorem login_failure_kinds_merged_witness :
    authService.login ⟨[], []⟩ "a@x.com" "pw" =
      (⟨[], []⟩, .error ⟨.AUTHENTICATION_ERROR, ErrorMessages.INVALID_CREDENTIALS⟩)
    ∧ authService.login
        ⟨[⟨"u1", some "Al", "a@x.com", none, none, none, .USER, 0, 0⟩], []⟩
        "a@x.com" "pw" =
      (⟨[⟨"u1", some "Al", "a@x.com", none, none, none, .USER, 0, 0⟩], []⟩,
       .error ⟨.AUTHENTICATION_ERROR, ErrorMessages.INVALID_CREDENTIALS⟩)
    ∧ authService.login
        ⟨[⟨"u1", some "Al", "a@x.com", some ⟨7, "right"⟩, none, none, .USER, 0, 0⟩], []⟩
        "a@x.com" "wrong" =
      (⟨[⟨"u1", some "Al", "a@x.com", some ⟨7, "right"⟩, none, none, .USER, 0, 0⟩], []⟩,
       .error ⟨.AUTHENTICATION_ERROR, ErrorMessages.INVALID_CREDENTIALS⟩) :=
  ⟨(login_failure_kinds_merged ⟨[], []⟩ "a@x.com" "pw").1 (by decide),
   (login_failure_kinds_merged _ "a@x.com" "pw").2.1
     ⟨"u1", some "Al", "a@x.com", none, none, none, .USER, 0, 0⟩ (by decide) rfl,
   (login_failure_kinds_merged _ "a@x.com" "wrong").2.2
     ⟨"u1", some "Al", "a@x.com", some ⟨7, "right"⟩, none, none, .USER, 0, 0⟩
     ⟨7, "right"⟩ (by decide) rfl (by decide)⟩

/-- C2: if some stored account already has the normalized form of `email`,
then a register call with `email` in any letter case fails with the
`CONFLICT` (AccountConflict) error and leaves both stores unchanged. -/
theorem register_conflict (db : DB) (email name password : String)
    (freshId : String) (salt : Nat) (freshToken : String) (now : Nat)
    (u : User) (hu : u ∈ db.users) (he : u.email = emailNorm email) :
    authService.registerFlow db email name password freshId salt freshToken now =
      (db, .error ⟨.CONFLICT, ErrorMessages.EMAIL_ALREADY_EXISTS⟩) := by
  have hex : userRepository.emailExists db (emailNorm email) = true := by
    unfold userRepository.emailExists
    rw [lowerStr_emailNorm]
    exact List.find?_isSome.mpr ⟨u, hu, by simp [he]⟩
  unfold authService.registerFlow authService.register
  simp [hex]

/-- C2 witness: a second registration of `a@example.com`, attempted as
`A@Example.com`, is rejected and the stores are untouched. -/
theorem register_conflict_witness :
    authService.registerFlow
      ⟨[⟨"u1", some "Al", "a@example.com", some ⟨7, "pw"⟩, none, none, .USER, 0, 0⟩],
       [⟨"a@example.com", "T1", 86400000⟩]⟩
      "A@Example.com" "Alice" "Sup3r$ec1" "u2" 8 "T2" 5 =
      (⟨[⟨"u1", some "Al", "a@example.com", some ⟨7, "pw"⟩, none, none, .USER, 0, 0⟩],
        [⟨"a@example.com", "T1", 86400000⟩]⟩,
       .error ⟨.CONFLICT, ErrorMessages.EMAIL_ALREADY_EXISTS⟩) :=
  register_conflict _ "A@Example.com" "Alice" "Sup3r$ec1" "u2" 8 "T2" 5
    ⟨"u1", some "Al", "a@example.com", some ⟨7, "pw"⟩, none, none, .USER, 0, 0⟩
    (by decide) (by decide)

/-- C6: `verifyEmail` on a stored token whose expiry is strictly in the past
returns the invalid-token error, performs the identifier-wide token cleanup
first, leaves no token record with that token value (given the
token-uniqueness constraint), and does not touch the user store. -/
theorem verifyEmail_expired_cleanup (db : DB) (tok : String) (now : Nat)
    (vt : VToken)
    (hfind : verificationTokenRepository.findByTokenValue db tok = some vt)
    (hexp : isTokenExpired vt.expires now = true)
    (huniq : ∀ t ∈ db.tokens, t.token = tok → t = vt) :
    authService.verifyEmail db tok now =
      (verificationTokenRepository.deleteByIdentifier db vt.identifier,
       .error ⟨.AUTHENTICATION_ERROR, ErrorMessages.INVALID_TOKEN⟩)
    ∧ verificationTokenRepository.findByTokenValue
        (authService.verifyEmail db tok now).1 tok = none
    ∧ (authService.verifyEmail db tok now).1.users = db.users := by
  have h1 : authService.verifyEmail db tok now =
      (verificationTokenRepository.deleteByIdentifier db vt.identifier,
       .error ⟨.AUTHENTICATION_ERROR, ErrorMessages.INVALID_TOKEN⟩) := by
    unfold authService.verifyEmail
    simp [hfind, hexp]
  refine ⟨h1, ?_, ?_⟩
  · rw [h1]
    apply List.find?_eq_none.mpr
    intro t ht hbeq
    have ht' : t ∈ db.tokens.filter (fun t => t.identifier != vt.identifier) := ht
    rw [List.mem_filter] at ht'
    obtain ⟨htmem, htpred⟩ := ht'
    have hteq : t = vt := huniq t htmem (by simpa using hbeq)
    subst hteq
    simp at htpred
  · rw [h1]
    rfl

/-- C6 witness: one expired token in the store. -/
theorem verifyEmail_expired_cleanup_witness :
    authService.verifyEmail
      ⟨[⟨"u1", some "Al", "a@x.com", some ⟨7, "pw"⟩, none, none, .USER, 0, 0⟩],
       [⟨"a@x.com", "T1", 1000⟩]⟩ "T1" 2000 =
      (verificationTokenRepository.deleteByIdentifier
        ⟨[⟨"u1", some "Al", "a@x.com", some ⟨7, "pw"⟩, none, none, .USER, 0, 0⟩],
         [⟨"a@x.com", "T1", 1000⟩]⟩ "a@x.com",
       .error ⟨.AUTHENTICATION_ERROR, ErrorMessages.INVALID_TOKEN⟩)
    ∧ verificationTokenRepository.findByTokenValue
        (authService.verifyEmail
          ⟨[⟨"u1", some "Al", "a@x.com", some ⟨7, "pw"⟩, none, none, .USER, 0, 0⟩],
           [⟨"a@x.com", "T1", 1000⟩]⟩ "T1" 2000).1 "T1" = none
    ∧ (authService.verifyEmail
        ⟨[⟨"u1", some "Al", "a@x.com", some ⟨7, "pw"⟩, none, none, .USER, 0, 0⟩],
         [⟨"a@x.com", "T1", 1000⟩]⟩ "T1" 2000).1.users =
        [⟨"u1", some "Al", "a@x.com", some ⟨7, "pw"⟩, none, none, .USER, 0, 0⟩] :=
  verifyEmail_expired_cleanup _ "T1" 2000 ⟨"a@x.com", "T1", 1000⟩
    (by decide) (by decide) (by decide)

theorem verifyEmail_token_absent (db : DB) (tok : String) (now : Nat)
    (h : verificationTokenRepository.findByTokenValue db tok = none) :
    authService.verifyEmail db tok now =
      (db, .error ⟨.AUTHENTICATION_ERROR, ErrorMessages.INVALID_TOKEN⟩) := by
  unfold authService.verifyEmail
  simp [h]

/-- The success path of the service `verifyEmail`, as one equation in terms
of whichever record the user-store update returned. -/
theorem verifyEmail_step_eq (db : DB) (tok : String) (now : Nat)
    (vt : VToken) (user w : User)
    (hfind : verificationTokenRepository.findByTokenValue db tok = some vt)
    (hexp : isTokenExpired vt.expires now = false)
    (huser : userRepository.findByEmail db vt.identifier = some user)
    (hw : (userRepository.verifyEmail db user.id now).2 = some w) :
    authService.verifyEmail db tok now =
      (verificationTokenRepository.delete
        ⟨db.users.map (markVerified user.id now), db.tokens⟩ vt.identifier vt.token,
       .ok (authService.toUserDTO w)) := by
  unfold authService.verifyEmail
  simp only [hfind, hexp, Bool.false_eq_true, if_false, huser]
  rw [show (userRepository.verifyEmail db user.id now) =
    (⟨db.users.map (markVerified user.id now), db.tokens⟩,
      (userRepository.verifyEmail db user.id now).2) from rfl]
  rw [hw]

/-- The success path of the service `verifyEmail`, under the id-uniqueness
constraint of the user store. -/
theorem verifyEmail_success_eq (db : DB) (tok : String) (now : Nat)
    (vt : VToken) (u : User)
    (hfind : verificationTokenRepository.findByTokenValue db tok = some vt)
    (hexp : isTokenExpired vt.expires now = false)
    (huser : userRepository.findByEmail db vt.identifier = some u)
    (hid : ∀ x ∈ db.users, x.id = u.id → x = u) :
    authService.verifyEmail db tok now =
      (verificationTokenRepository.delete
        ⟨db.users.map (markVerified u.id now), db.tokens⟩ vt.identifier vt.token,
       .ok (authService.toUserDTO
        { u with emailVerified := some now, updatedAt := now })) := by
  have hu : u ∈ db.users := List.mem_of_find?_eq_some huser
  have hver := userVerifyEmail_snd db u.id now u hu rfl hid
  exact verifyEmail_step_eq db tok now vt u _ hfind hexp huser hver

/-- C1: a stored, unexpired token whose identifier resolves to an account is
consumed exactly once: the first `verifyEmail` returns the account view with
`emailVerified` set to the current time, deletes the token, and an immediate
second `verifyEmail` with the same token fails with the invalid-token error
while leaving the state unchanged.  The uniqueness hypotheses are the
unique-key constraints of the stores on `User.id` and `VerificationToken.token`. -/
theorem verifyEmail_single_use (db : DB) (tok : String) (now now2 : Nat)
    (vt : VToken) (u : User)
    (hfind : verificationTokenRepository.findByTokenValue db tok = some vt)
    (hexp : isTokenExpired vt.expires now = false)
    (huser : userRepository.findByEmail db vt.identifier = some u)
    (hid : ∀ x ∈ db.users, x.id = u.id → x = u)
    (htok : ∀ t ∈ db.tokens, t.token = tok → t = vt) :
    (authService.verifyEmail db tok now).2 =
      .ok (authService.toUserDTO { u with emailVerified := some now, updatedAt := now })
    ∧ (authService.toUserDTO
        { u with emailVerified := some now, updatedAt := now }).emailVerified = some now
    ∧ verificationTokenRepository.findByTokenValue
        (authService.verifyEmail db tok now).1 tok = none
    ∧ authService.verifyEmail (authService.verifyEmail db tok now).1 tok now2 =
        ((authService.verifyEmail db tok now).1,
         .error ⟨.AUTHENTICATION_ERROR, ErrorMessages.INVALID_TOKEN⟩) := by
  have hvtok : vt.token = tok := by
    have := List.find?_some hfind
    simpa using this
  have h1 := verifyEmail_success_eq db tok now vt u hfind hexp huser hid
  have hnone : verificationTokenRepository.findByTokenValue
      (authService.verifyEmail db tok now).1 tok = none := by
    rw [h1]
    apply List.find?_eq_none.mpr
    intro t ht hbeq
    have ht' : t ∈ db.tokens.filter
        (fun t => !(t.identifier == vt.identifier && t.token == vt.token)) := ht
    rw [List.mem_filter] at ht'
    obtain ⟨htmem, htpred⟩ := ht'
    have hteq : t = vt := htok t htmem (by simpa using hbeq)
    subst hteq
    simp [hvtok] at htpred
  refine ⟨by rw [h1], rfl, hnone, ?_⟩
  exact verifyEmail_token_absent _ tok now2 hnone

/-- C1 witness: a fresh unexpired token for an unverified account. -/
theorem verifyEmail_single_use_witness :
    (authService.verifyEmail
      ⟨[⟨"u1", some "Al", "a@x.com", some ⟨7, "pw"⟩, none, none, .USER, 0, 0⟩],
       [⟨"a@x.com", "T1", 86400000⟩]⟩ "T1" 1000).2 =
      .ok (authService.toUserDTO
        ⟨"u1", some "Al", "a@x.com", some ⟨7, "pw"⟩, some 1000, none, .USER, 0, 1000⟩)
    ∧ (authService.toUserDTO
        ⟨"u1", some "Al", "a@x.com", some ⟨7, "pw"⟩, some 1000, none, .USER, 0, 1000⟩).emailVerified
        = some 1000
    ∧ verificationTokenRepository.findByTokenValue
        (authService.verifyEmail
          ⟨[⟨"u1", some "Al", "a@x.com", some ⟨7, "pw"⟩, none, none, .USER, 0, 0⟩],
           [⟨"a@x.com", "T1", 86400000⟩]⟩ "T1" 1000).1 "T1" = none
    ∧ authService.verifyEmail
        (authService.verifyEmail
          ⟨[⟨"u1", some "Al", "a@x.com", some ⟨7, "pw"⟩, none, none, .USER, 0, 0⟩],
           [⟨"a@x.com", "T1", 86400000⟩]⟩ "T1" 1000).1 "T1" 2000 =
        ((authService.verifyEmail
          ⟨[⟨"u1", some "Al", "a@x.com", some ⟨7, "pw"⟩, none, none, .USER, 0, 0⟩],
           [⟨"a@x.com", "T1", 86400000⟩]⟩ "T1" 1000).1,
         .error ⟨.AUTHENTICATION_ERROR, ErrorMessages.INVALID_TOKEN⟩) :=
  verifyEmail_single_use _ "T1" 1000 2000 ⟨"a@x.com", "T1", 86400000⟩
    ⟨"u1", some "Al", "a@x.com", some ⟨7, "pw"⟩, none, none, .USER, 0, 0⟩
    (by decide) (by decide) (by decide) (by decide) (by decide)

theorem markVerified_email (id : String) (now : Nat) (x : User) :
    (markVerified id now x).email = x.email := by
  unfold markVerified
  split <;> rfl

theorem find?_email_map_markVerified (l : List User) (e : String)
    (id : String) (now : Nat) :
    (l.map (markVerified id now)).find? (fun x => x.email == e) =
      (l.find? (fun x => x.email == e)).map (markVerified id now) := by
  rw [List.find?_map]
  have hp : ((fun x : User => x.email == e) ∘ markVerified id now) =
      (fun x : User => x.email == e) := by
    funext x
    simp [Function.comp, markVerified_email]
  rw [hp]

/-- C5: with a stored account whose hash verifies the given secret, `login`
fails with the email-not-verified error exactly while `emailVerified` is
null, succeeds once it is set, and after a successful `verifyEmail` of a
token for this account the same email/secret pair logs in and receives the
sanitized view, which is unchanged by erasing the stored credential hash. -/
theorem login_gates_on_verification (db : DB) (email password : String)
    (u : User) (hv : HashVal)
    (hfind : userRepository.findByEmail db email = some u)
    (hpw : u.password = some hv)
    (hok : verifyPassword password hv = true) :
    (u.emailVerified = none →
      authService.login db email password =
        (db, .error ⟨.AUTHENTICATION_ERROR, ErrorMessages.EMAIL_NOT_VERIFIED⟩))
    ∧ (∀ ev, u.emailVerified = some ev →
      authService.login db email password = (db, .ok (authService.toUserDTO u)))
    ∧ (∀ tok now vt, verificationTokenRepository.findByTokenValue db tok = some vt →
      isTokenExpired vt.expires now = false →
      userRepository.findByEmail db vt.identifier = some u →
      (∀ x ∈ db.users, x.id = u.id → x = u) →
      (authService.login (authService.verifyEmail db tok now).1 email password).2 =
        .ok (authService.toUserDTO
          { u with emailVerified := some now, updatedAt := now })
      ∧ authService.toUserDTO { u with emailVerified := some now, updatedAt := now } =
        authService.toUserDTO
          { u with password := none, emailVerified := some now, updatedAt := now }) := by
  refine ⟨?_, ?_, ?_⟩
  · intro hev
    simp [authService.login, hfind, hpw, hok, hev]
  · intro ev hev
    simp [authService.login, hfind, hpw, hok, hev]
  · intro tok now vt htfind htexp htuser huid
    have h1 := verifyEmail_success_eq db tok now vt u htfind htexp htuser huid
    have hmarked : markVerified u.id now u =
        { u with emailVerified := some now, updatedAt := now } := by
      simp [markVerified]
    have hfind' : userRepository.findByEmail
        (authService.verifyEmail db tok now).1 email =
        some { u with emailVerified := some now, updatedAt := now } := by
      rw [h1]
      show (db.users.map (markVerified u.id now)).find?
        (fun x => x.email == lowerStr email) = _
      rw [find?_email_map_markVerified]
      rw [show db.users.find? (fun x => x.email == lowerStr email) = some u from hfind]
      simp [hmarked]
    constructor
    · simp [authService.login, hfind', hpw, hok]
    · rfl

/-- C5 witness: unverified account fails with the not-verified error; after
consuming its token the same pair succeeds. -/
theorem login_gates_on_verification_witness :
    authService.login
      ⟨[⟨"u1", some "Al", "a@x.com", some ⟨7, "pw"⟩, none, none, .USER, 0, 0⟩],
       [⟨"a@x.com", "T1", 86400000⟩]⟩ "a@x.com" "pw" =
      (⟨[⟨"u1", some "Al", "a@x.com", some ⟨7, "pw"⟩, none, none, .USER, 0, 0⟩],
        [⟨"a@x.com", "T1", 86400000⟩]⟩,
       .error ⟨.AUTHENTICATION_ERROR, ErrorMessages.EMAIL_NOT_VERIFIED⟩)
    ∧ (authService.login
        (authService.verifyEmail
          ⟨[⟨"u1", some "Al", "a@x.com", some ⟨7, "pw"⟩, none, none, .USER, 0, 0⟩],
           [⟨"a@x.com", "T1", 86400000⟩]⟩ "T1" 1000).1 "a@x.com" "pw").2 =
      .ok (authService.toUserDTO
        ⟨"u1", some "Al", "a@x.com", some ⟨7, "pw"⟩, some 1000, none, .USER, 0, 1000⟩) :=
  ⟨(login_gates_on_verification _ "a@x.com" "pw"
      ⟨"u1", some "Al", "a@x.com", some ⟨7, "pw"⟩, none, none, .USER, 0, 0⟩
      ⟨7, "pw"⟩ (by decide) rfl (by decide)).1 rfl,
   ((login_gates_on_verification _ "a@x.com" "pw"
      ⟨"u1", some "Al", "a@x.com", some ⟨7, "pw"⟩, none, none, .USER, 0, 0⟩
      ⟨7, "pw"⟩ (by decide) rfl (by decide)).2.2 "T1" 1000
      ⟨"a@x.com", "T1", 86400000⟩ (by decide) (by decide) (by decide)
      (by decide)).1⟩

/-- C8: `toUserDTO` is blind to the stored credential hash (the `UserDTO`
type has no such field, so erasing the hash does not change the view), and
every successful result of the public operations — register, login,
verifyEmail, getUserById, getUserByEmail — is `toUserDTO` of a stored
account, hence never contains the hash. -/
theorem sanitized_account_views (db : DB) :
    (∀ (u : User) (pw : Option HashVal),
      authService.toUserDTO { u with password := pw } = authService.toUserDTO u)
    ∧ (∀ data freshId salt freshToken now dto rawTok,
      (authService.register db data freshId salt freshToken now).2 = .ok (dto, rawTok) →
      ∃ u ∈ (authService.register db data freshId salt freshToken now).1.users,
        dto = authService.toUserDTO u)
    ∧ (∀ e p dto, (authService.login db e p).2 = .ok dto →
      ∃ u ∈ db.users, dto = authService.toUserDTO u)
    ∧ (∀ tok now dto, (authService.verifyEmail db tok now).2 = .ok dto →
      ∃ u ∈ (authService.verifyEmail db tok now).1.users,
        dto = authService.toUserDTO u)
    ∧ (∀ id dto, authService.getUserById db id = some dto →
      ∃ u ∈ db.users, dto = authService.toUserDTO u)
    ∧ (∀ e dto, authService.getUserByEmail db e = some dto →
      ∃ u ∈ db.users, dto = authService.toUserDTO u) := by
  refine ⟨fun u pw => rfl, ?_, ?_, ?_, ?_, ?_⟩
  · intro data freshId salt freshToken now dto rawTok hok
    cases hex : userRepository.emailExists db data.email with
    | true => simp [authService.register, hex] at hok
    | false =>
      simp only [authService.register, hex, Bool.false_eq_true, if_false] at hok ⊢
      obtain ⟨h1, -⟩ := by simpa using hok
      exact ⟨_, by simp [verificationTokenRepository.create, userRepository.create],
        h1.symm⟩
  · intro e p dto hok
    cases hf : userRepository.findByEmail db e with
    | none => simp [authService.login, hf] at hok
    | some u =>
      cases hp : u.password with
      | none => simp [authService.login, hf, hp] at hok
      | some hv =>
        cases hverify : verifyPassword p hv with
        | false => simp [authService.login, hf, hp, hverify] at hok
        | true =>
          cases hev : u.emailVerified with
          | none => simp [authService.login, hf, hp, hverify, hev] at hok
          | some t =>
            have : dto = authService.toUserDTO u := by
              simpa [authService.login, hf, hp, hverify, hev] using hok.symm
            exact ⟨u, List.mem_of_find?_eq_some hf, this⟩
  · intro tok now dto hok
    cases hf : verificationTokenRepository.findByTokenValue db tok with
    | none => simp [authService.verifyEmail, hf] at hok
    | some vt =>
      cases he : isTokenExpired vt.expires now with
      | true => simp [authService.verifyEmail, hf, he] at hok
      | false =>
        cases hu : userRepository.findByEmail db vt.identifier with
        | none => simp [authService.verifyEmail, hf, he, hu] at hok
        | some user =>
          cases hw : (userRepository.verifyEmail db user.id now).2 with
          | none => simp [authService.verifyEmail, hf, he, hu, hw] at hok
          | some w =>
            have heq := verifyEmail_step_eq db tok now vt user w hf he hu hw
            rw [heq] at hok
            have hdto : dto = authService.toUserDTO w := by
              simpa using hok.symm
            refine ⟨w, ?_, hdto⟩
            rw [heq]
            exact (show w ∈ db.users.map (markVerified user.id now) from
              List.mem_of_find?_eq_some hw)
  · intro id dto hok
    unfold authService.getUserById at hok
    cases hf : userRepository.findById db id with
    | none => simp [hf] at hok
    | some u =>
      rw [hf] at hok
      exact ⟨u, List.mem_of_find?_eq_some hf, by simpa using hok.symm⟩
  · intro e dto hok
    unfold authService.getUserByEmail at hok
    cases hf : userRepository.findByEmail db e with
    | none => simp [hf] at hok
    | some u =>
      rw [hf] at hok
      exact ⟨u, List.mem_of_find?_eq_some hf, by simpa using hok.symm⟩

/-- C8 witness: the login conjunct at a concrete verified account. -/
theorem sanitized_account_views_witness :
    ∃ u ∈ (⟨[⟨"u1", some "Al", "a@x.com", some ⟨7, "pw"⟩, some 5, none, .USER, 0, 0⟩],
            []⟩ : DB).users,
      authService.toUserDTO
        ⟨"u1", some "Al", "a@x.com", some ⟨7, "pw"⟩, some 5, none, .USER, 0, 0⟩ =
        authService.toUserDTO u :=
  (sanitized_account_views
    ⟨[⟨"u1", some "Al", "a@x.com", some ⟨7, "pw"⟩, some 5, none, .USER, 0, 0⟩], []⟩).2.2.1
    "a@x.com" "pw"
    (authService.toUserDTO
      ⟨"u1", some "Al", "a@x.com", some ⟨7, "pw"⟩, some 5, none, .USER, 0, 0⟩)
    rfl

/-! ### Branch equations for the service operations -/

theorem login_fst (db : DB) (email password : String) :
    (authService.login db email password).1 = db := by
  unfold authService.login
  repeat' split
  all_goals rfl

theorem registerFlow_conflict_eq (db : DB) (email name password freshId : String)
    (salt : Nat) (freshToken : String) (now : Nat)
    (hex : userRepository.emailExists db (emailNorm email) = true) :
    authService.registerFlow db email name password freshId salt freshToken now =
      (db, .error ⟨.CONFLICT, ErrorMessages.EMAIL_ALREADY_EXISTS⟩) := by
  unfold authService.registerFlow authService.register
  simp [hex]

theorem registerFlow_success_eq (db : DB) (email name password freshId : String)
    (salt : Nat) (freshToken : String) (now : Nat)
    (hex : userRepository.emailExists db (emailNorm email) = false) :
    authService.registerFlow db email name password freshId salt freshToken now =
      (⟨db.users ++ [⟨freshId, some (trimStr name), emailNorm email,
          some ⟨salt, password⟩, none, none, .USER, now, now⟩],
        db.tokens ++ [⟨emailNorm email, freshToken, generateTokenExpiry 24 now⟩]⟩,
       .ok (authService.toUserDTO ⟨freshId, some (trimStr name), emailNorm email,
          some ⟨salt, password⟩, none, none, .USER, now, now⟩, freshToken)) := by
  unfold authService.registerFlow authService.register userRepository.create
    verificationTokenRepository.create hashPassword
  simp [hex]

theorem verifyEmail_expired_eq (db : DB) (tok : String) (now : Nat) (vt : VToken)
    (hfind : verificationTokenRepository.findByTokenValue db tok = some vt)
    (hexp : isTokenExpired vt.expires now = true) :
    authService.verifyEmail db tok now =
      (verificationTokenRepository.deleteByIdentifier db vt.identifier,
       .error ⟨.AUTHENTICATION_ERROR, ErrorMessages.INVALID_TOKEN⟩) := by
  unfold authService.verifyEmail
  simp [hfind, hexp]

theorem verifyEmail_user_absent_eq (db : DB) (tok : String) (now : Nat) (vt : VToken)
    (hfind : verificationTokenRepository.findByTokenValue db tok = some vt)
    (hexp : isTokenExpired vt.expires now = false)
    (huser : userRepository.findByEmail db vt.identifier = none) :
    authService.verifyEmail db tok now =
      (db, .error ⟨.NOT_FOUND, ErrorMessages.USER_NOT_FOUND⟩) := by
  unfold authService.verifyEmail
  simp [hfind, hexp, huser]

theorem verifyEmail_internal_eq (db : DB) (tok : String) (now : Nat)
    (vt : VToken) (user : User)
    (hfind : verificationTokenRepository.findByTokenValue db tok = some vt)
    (hexp : isTokenExpired vt.expires now = false)
    (huser : userRepository.findByEmail db vt.identifier = some user)
    (hw : (userRepository.verifyEmail db user.id now).2 = none) :
    authService.verifyEmail db tok now =
      (⟨db.users.map (markVerified user.id now), db.tokens⟩,
       .error ⟨.INTERNAL_ERROR, "record not found"⟩) := by
  unfold authService.verifyEmail
  simp only [hfind, hexp, Bool.false_eq_true, if_false, huser]
  rw [show (userRepository.verifyEmail db user.id now) =
    (⟨db.users.map (markVerified user.id now), db.tokens⟩,
      (userRepository.verifyEmail db user.id now).2) from rfl]
  rw [hw]

theorem resend_notfound_eq (db : DB) (email freshToken : String) (now : Nat)
    (hf : userRepository.findByEmail db email = none) :
    authService.resendVerification db email freshToken now =
      (db, .error ⟨.NOT_FOUND, ErrorMessages.USER_NOT_FOUND⟩) := by
  unfold authService.resendVerification
  simp [hf]

theorem resend_verified_eq (db : DB) (email freshToken : String) (now : Nat)
    (user : User)
    (hf : userRepository.findByEmail db email = some user)
    (hev : user.emailVerified.isSome = true) :
    authService.resendVerification db email freshToken now =
      (db, .error ⟨.VALIDATION_ERROR, ErrorMessages.EMAIL_ALREADY_VERIFIED⟩) := by
  unfold authService.resendVerification
  simp [hf, hev]

theorem resend_success_eq (db : DB) (email freshToken : String) (now : Nat)
    (user : User)
    (hf : userRepository.findByEmail db email = some user)
    (hev : user.emailVerified = none) :
    authService.resendVerification db email freshToken now =
      (⟨db.users, (db.tokens.filter fun t => t.identifier != email) ++
          [⟨email, freshToken, generateTokenExpiry 24 now⟩]⟩,
       .ok freshToken) := by
  unfold authService.resendVerification verificationTokenRepository.deleteByIdentifier
    verificationTokenRepository.create
  simp [hf, hev]

/-! ### The token-account invariant over reachable states -/

theorem reachable_tokensHaveAccounts (db : DB) (h : Reachable db) :
    TokensHaveAccounts db := by
  induction h with
  | empty => intro vt hvt; cases hvt
  | register db email name password freshId salt freshToken now _ ih =>
    cases hex : userRepository.emailExists db (emailNorm email) with
    | true =>
      rw [registerFlow_conflict_eq db email name password freshId salt freshToken now hex]
      exact ih
    | false =>
      rw [registerFlow_success_eq db email name password freshId salt freshToken now hex]
      intro vt hvt
      rcases List.mem_append.mp hvt with hold | hnew
      · obtain ⟨u, hu, he⟩ := ih vt hold
        exact ⟨u, List.mem_append_left _ hu, he⟩
      · rw [List.mem_singleton] at hnew
        subst hnew
        exact ⟨_, List.mem_append_right _ (List.mem_singleton.mpr rfl),
          by simp [lowerStr_emailNorm]⟩
  | login db email password _ ih =>
    rw [login_fst db email password]
    exact ih
  | verifyEmailStep db tok now _ ih =>
    cases hf : verificationTokenRepository.findByTokenValue db tok with
    | none =>
      rw [verifyEmail_token_absent db tok now hf]
      exact ih
    | some vt =>
      cases he : isTokenExpired vt.expires now with
      | true =>
        rw [verifyEmail_expired_eq db tok now vt hf he]
        intro t ht
        have ht' : t ∈ db.tokens.filter (fun t => t.identifier != vt.identifier) := ht
        exact ih t (List.mem_filter.mp ht').1
      | false =>
        cases hu : userRepository.findByEmail db vt.identifier with
        | none =>
          rw [verifyEmail_user_absent_eq db tok now vt hf he hu]
          exact ih
        | some user =>
          cases hw : (userRepository.verifyEmail db user.id now).2 with
          | none =>
            rw [verifyEmail_internal_eq db tok now vt user hf he hu hw]
            intro t ht
            obtain ⟨u', hu', he'⟩ := ih t ht
            exact ⟨markVerified user.id now u', List.mem_map_of_mem _ hu',
              by rw [markVerified_email]; exact he'⟩
          | some w =>
            rw [verifyEmail_step_eq db tok now vt user w hf he hu hw]
            intro t ht
            have ht' : t ∈ db.tokens.filter
              (fun t => !(t.identifier == vt.identifier && t.token == vt.token)) := ht
            obtain ⟨u', hu', he'⟩ := ih t (List.mem_filter.mp ht').1
            exact ⟨markVerified user.id now u', List.mem_map_of_mem _ hu',
              by rw [markVerified_email]; exact he'⟩
  | resend db email freshToken now _ ih =>
    cases hf : userRepository.findByEmail db email with
    | none =>
      rw [resend_notfound_eq db email freshToken now hf]
      exact ih
    | some user =>
      cases hev : user.emailVerified with
      | some t0 =>
        rw [resend_verified_eq db email freshToken now user hf (by simp [hev])]
        exact ih
      | none =>
        rw [resend_success_eq db email freshToken now user hf hev]
        intro t ht
        rcases List.mem_append.mp ht with hold | hnew
        · exact ih t (List.mem_filter.mp hold).1
        · rw [List.mem_singleton] at hnew
          subst hnew
          have huser : user.email = lowerStr email := by
            simpa using List.find?_some hf
          exact ⟨user, List.mem_of_find?_eq_some hf, huser⟩

/-- C7: in any reachable state with no account under the normalized email,
registration succeeds, the returned view has a null `emailVerified`, and
afterwards exactly one verification token carries that email as identifier —
the newly persisted one, expiring 24 hours after the call, whose value is
exactly the raw token returned to the caller. -/
theorem register_fresh_unique_token (db : DB)
    (email name password freshId : String) (salt : Nat)
    (freshToken : String) (now : Nat)
    (hr : Reachable db)
    (hno : userRepository.emailExists db (emailNorm email) = false) :
    (authService.registerFlow db email name password freshId salt freshToken now).2 =
      .ok (authService.toUserDTO ⟨freshId, some (trimStr name), emailNorm email,
        some ⟨salt, password⟩, none, none, .USER, now, now⟩, freshToken)
    ∧ (authService.toUserDTO ⟨freshId, some (trimStr name), emailNorm email,
        some ⟨salt, password⟩, none, none, .USER, now, now⟩).emailVerified = none
    ∧ ((authService.registerFlow db email name password
          freshId salt freshToken now).1.tokens.filter
        (fun t => t.identifier == emailNorm email)) =
      [⟨emailNorm email, freshToken, now + 24 * 60 * 60 * 1000⟩] := by
  have heq := registerFlow_success_eq db email name password freshId salt freshToken now hno
  refine ⟨by rw [heq], rfl, ?_⟩
  rw [heq]
  show (db.tokens ++
      ([⟨emailNorm email, freshToken, generateTokenExpiry 24 now⟩] : List VToken)).filter
    (fun t => t.identifier == emailNorm email) =
    [⟨emailNorm email, freshToken, now + 24 * 60 * 60 * 1000⟩]
  rw [List.filter_append]
  have hempty : db.tokens.filter (fun t => t.identifier == emailNorm email) = [] := by
    rw [List.filter_eq_nil_iff]
    intro t ht hbeq
    obtain ⟨u, hu, he⟩ := reachable_tokensHaveAccounts db hr t ht
    have hid : t.identifier = emailNorm email := by simpa using hbeq
    have hue : u.email = emailNorm email := by rw [he, hid, lowerStr_emailNorm]
    have hex : userRepository.emailExists db (emailNorm email) = true := by
      unfold userRepository.emailExists
      rw [lowerStr_emailNorm]
      exact List.find?_isSome.mpr ⟨u, hu, by simp [hue]⟩
    rw [hex] at hno
    cases hno
  rw [hempty]
  simp [generateTokenExpiry]

/-- C7 witness: registering a fresh email in the empty (reachable) state. -/
theorem register_fresh_unique_token_witness :
    (authService.registerFlow ⟨[], []⟩ "a@x.com" "Alice" "Sup3r$ec1" "u1" 7 "T1" 0).2 =
      .ok (authService.toUserDTO ⟨"u1", some (trimStr "Alice"), emailNorm "a@x.com",
        some ⟨7, "Sup3r$ec1"⟩, none, none, .USER, 0, 0⟩, "T1")
    ∧ (authService.toUserDTO ⟨"u1", some (trimStr "Alice"), emailNorm "a@x.com",
        some ⟨7, "Sup3r$ec1"⟩, none, none, .USER, 0, 0⟩).emailVerified = none
    ∧ ((authService.registerFlow ⟨[], []⟩ "a@x.com" "Alice" "Sup3r$ec1"
          "u1" 7 "T1" 0).1.tokens.filter
        (fun t => t.identifier == emailNorm "a@x.com")) =
      [⟨emailNorm "a@x.com", "T1", 0 + 24 * 60 * 60 * 1000⟩] :=
  register_fresh_unique_token ⟨[], []⟩ "a@x.com" "Alice" "Sup3r$ec1" "u1" 7 "T1" 0
    Reachable.empty rfl

/-- C3 counter-evidence: `resendVerification` called with the account email
in mixed case (`A@x.com` for the account stored as `a@x.com`) succeeds, yet
the previously outstanding token `T1` for the normalized account email is
not deleted — two live tokens remain, the new one filed under the raw
mixed-case identifier — and the old token still verifies afterwards.  The
claimed invalidate-then-reissue guarantee fails because the service deletes
and creates tokens under the raw email while only the account lookup
lowercases. -/
theorem resend_mixed_case_leaves_old_token :
    (authService.resendVerification dbAliceUnverified "A@x.com" "T2" 5).2 = .ok "T2"
    ∧ (authService.resendVerification dbAliceUnverified "A@x.com" "T2" 5).1.tokens =
        [⟨"a@x.com", "T1", 86400000⟩, ⟨"A@x.com", "T2", 86400005⟩]
    ∧ (authService.verifyEmail
        (authService.resendVerification dbAliceUnverified "A@x.com" "T2" 5).1
        "T1" 1000).2 =
        .ok ⟨"u1", some "Alice", "a@x.com", some 1000, none, .USER, 0, 1000⟩ :=
  ⟨rfl, rfl, rfl⟩

/-- C9: the state left by register → mixed-case resend → first verification
is reachable, holds an unexpired token `T2` whose account is already
verified (at time 1000), and `verifyEmail` with `T2` succeeds anyway,
overwriting `emailVerified` with the current time 2000 instead of failing
with an already-verified error. -/
theorem verifyEmail_ignores_prior_verification :
    Reachable dbAfterFirstVerify
    ∧ verificationTokenRepository.findByTokenValue dbAfterFirstVerify "T2" =
        some ⟨"A@x.com", "T2", 86400005⟩
    ∧ isTokenExpired 86400005 2000 = false
    ∧ (userRepository.findByEmail dbAfterFirstVerify "A@x.com").map User.emailVerified =
        some (some 1000)
    ∧ (authService.verifyEmail dbAfterFirstVerify "T2" 2000).2 =
        .ok ⟨"u1", some "Alice", "a@x.com", some 2000, none, .USER, 0, 2000⟩
    ∧ (userRepository.findByEmail (authService.verifyEmail dbAfterFirstVerify "T2" 2000).1
        "a@x.com").map User.emailVerified = some (some 2000) := by
  refine ⟨?_, rfl, rfl, rfl, rfl, rfl⟩
  have h1 : Reachable dbAliceUnverified := by
    have h0 := Reachable.register ⟨[], []⟩ "a@x.com" "Alice" "Sup3r$ec1" "u1" 7 "T1" 0
      Reachable.empty
    have heq : (authService.registerFlow ⟨[], []⟩ "a@x.com" "Alice" "Sup3r$ec1"
        "u1" 7 "T1" 0).1 = dbAliceUnverified := rfl
    rwa [heq] at h0
  have h2 : Reachable dbAfterMixedCaseResend :=
    Reachable.resend dbAliceUnverified "A@x.com" "T2" 5 h1
  exact Reachable.verifyEmailStep dbAfterMixedCaseResend "T1" 1000 h2

end Venues
